import Mathlib

/-!
Verification of the core logic of the cursor-qr-code-generator repository.

This file shallowly embeds the non-visual logic of `src/src/app/page.tsx`:

* the JavaScript string primitives the component uses (`trim`, `toLowerCase`,
  `startsWith`, `includes`, `split`), modelled on lists of characters;
* the browser URL constructor (`new URL`), which is external to the repository,
  modelled from the spec to the extent the component relies on it;
* the Validator (`isValidUrlScheme`, `isValidUrl`, `normalizeUrl`);
* the Sanitizer advisory check (`checkSuspiciousUrl` with its ordered pattern
  table);
* the QR-record generation step (`mkRecord`, `generateRecords`) with its
  MAX_QR_CODES cap;
* the CSV candidate extraction loop (`extractCandidates`);
* the cut-and-stack Collator (`numberForCell`) together with the per-slot
  stacks and their row-major concatenation.

All definitions are executable; theorems about them follow the definitions.
-/

namespace QRGen

/-! ### JavaScript string primitives, modelled on lists of characters -/

/-- Whitespace recognised by the model of JavaScript `String.prototype.trim`
(space, tab, line feed, carriage return, vertical tab, form feed). -/
def jsWhitespaceChar (ch : Char) : Bool :=
  ch == ' ' || ch == '\t' || ch == '\n' || ch == '\r' || ch == '\x0b' || ch == '\x0c'

/-- Strip leading and trailing whitespace from a character list. -/
def trimChars (l : List Char) : List Char :=
  ((l.dropWhile jsWhitespaceChar).reverse.dropWhile jsWhitespaceChar).reverse

/-- Model of JavaScript `s.trim()`. -/
def jsTrim (s : String) : String := String.mk (trimChars s.data)

/-- Model of JavaScript `s.toLowerCase()` (per-character lowering). -/
def lowerStr (s : String) : String := String.mk (s.data.map Char.toLower)

/-- Model of JavaScript `s.startsWith(pre)`. -/
def jsStartsWith (s pre : String) : Bool := pre.data.isPrefixOf s.data

/-- Does `pat` occur as a contiguous sublist of the second argument? -/
def subList (pat : List Char) : List Char → Bool
  | [] => pat.isEmpty
  | c :: rest => pat.isPrefixOf (c :: rest) || subList pat rest

/-- Model of JavaScript `s.includes(pat)` / regex substring match. -/
def containsSub (s pat : String) : Bool := subList pat.data s.data

/-! ### Model of the browser URL constructor -/

/-- The observable parts of a parsed URL used by `page.tsx`:
`urlObj.protocol` (scheme with trailing colon, lowercased) and
`urlObj.hostname` (lowercased). -/
structure URLParts where
  protocol : String
  hostname : String
deriving DecidableEq, Repr

/-- First character a URL scheme may start with (ASCII letter). -/
def isSchemeStartChar (ch : Char) : Bool := ch.isAlpha

/-- Characters a URL scheme may contain after the first. -/
def isSchemeChar (ch : Char) : Bool :=
  ch.isAlphanum || ch == '+' || ch == '-' || ch == '.'

/-- The WHATWG special schemes whose authority/host section is validated. -/
def specialSchemes : List String := ["http:", "https:", "ws:", "wss:", "ftp:", "file:"]

/-- Characters that may not appear in the host of a special-scheme URL
(a representative subset of the WHATWG forbidden host code points). -/
def forbiddenHostChar (ch : Char) : Bool :=
  ch == ' ' || ch == '\t' || ch == '\n' || ch == '\r' || ch == '<' || ch == '>' ||
  ch == '#' || ch == '%' || ch == '[' || ch == ']' || ch == '^' || ch == '|' || ch == '\\'

/-- Suffix of `l` strictly after the last occurrence of `sep`
(or `l` itself when `sep` does not occur). -/
def afterLastChar (sep : Char) (l : List Char) : List Char :=
  (l.reverse.takeWhile (fun ch => ch != sep)).reverse

/-- Longest leading segment of `l` before the first occurrence of `sep`. -/
def beforeFirstChar (sep : Char) (l : List Char) : List Char :=
  l.takeWhile (fun ch => ch != sep)

/-- Modelled from the spec: the browser `new URL` constructor used by
`isValidUrlScheme`, `isValidUrl` and `checkSuspiciousUrl` in `page.tsx`.
This capability is external to the repository (spec section 6 treats it as a
collaborator), so it is modelled here after the WHATWG behaviour the spec
relies on: leading/trailing whitespace is stripped; an absolute URL must
begin with a scheme (ASCII letter, then letters/digits/`+`/`-`/`.`) followed
by a colon, otherwise parsing fails; for the special schemes the authority
section (after optional slashes, up to `/`, `?` or `#`, with userinfo and
port removed) must be a non-empty host without forbidden characters; any
non-special scheme parses successfully with an opaque path and empty
hostname. Returns `none` exactly where the constructor throws. -/
def parseURL (s : String) : Option URLParts :=
  let l := trimChars s.data
  let sch := l.takeWhile isSchemeChar
  let rest := l.dropWhile isSchemeChar
  match sch, rest with
  | c :: _, ':' :: afterColon =>
    if isSchemeStartChar c then
      let protoStr : String := String.mk ((sch.map Char.toLower) ++ [':'])
      if specialSchemes.contains protoStr then
        let afterSlashes := afterColon.dropWhile (fun ch => ch == '/')
        let authority := afterSlashes.takeWhile
          (fun ch => ch != '/' && ch != '?' && ch != '#')
        let host := beforeFirstChar ':' (afterLastChar '@' authority)
        if host.isEmpty || host.any forbiddenHostChar then none
        else some { protocol := protoStr, hostname := String.mk (host.map Char.toLower) }
      else
        some { protocol := protoStr, hostname := "" }
    else none
  | _, _ => none

/-! ### Validator (`page.tsx` lines 82-164) -/

/-- Security constant: allowed URL schemes (`page.tsx` line 27). -/
def ALLOWED_SCHEMES : List String := ["http:", "https:"]

/-- Embeds `isValidUrlScheme` (`page.tsx` lines 83-96): parse the URL and
check the scheme; on parse failure retry with an `https://` prefix. -/
def isValidUrlScheme (url : String) : Bool :=
  match parseURL url with
  | some u => ALLOWED_SCHEMES.contains u.protocol
  | none =>
    match parseURL ("https://" ++ url) with
    | some u => ALLOWED_SCHEMES.contains u.protocol
    | none => false

/-- Embeds `isValidUrl` (`page.tsx` lines 137-157). The source guard
`!url || url.trim().length === 0` is the single condition that the trimmed
text is empty, since `!url` only adds the empty string, whose trim is empty. -/
def isValidUrl (url : String) : Bool :=
  if (jsTrim url).length = 0 then false
  else if !isValidUrlScheme url then false
  else
    match parseURL url with
    | some _ => true
    | none =>
      match parseURL ("https://" ++ url) with
      | some _ => true
      | none => false

/-- Embeds `normalizeUrl` (`page.tsx` lines 159-164). -/
def normalizeUrl (url : String) : String :=
  if jsStartsWith url "http://" || jsStartsWith url "https://" then url
  else "https://" ++ url

/-- The parse result the Validator effectively inspects: the direct parse,
or the `https://`-prefixed parse when the direct parse fails (the
retry-with-fallback idiom of `page.tsx` lines 84-95). -/
def effectiveParse (s : String) : Option URLParts :=
  match parseURL s with
  | some u => some u
  | none => parseURL ("https://" ++ s)

/-! ### Sanitizer advisory check (`page.tsx` lines 98-135) -/

/-- The ordered pattern table of `checkSuspiciousUrl` (`page.tsx` lines
100-107): each entry is the test of one regex together with its advisory
message. The regexes are case-insensitive substring tests except the last,
which matches `..` followed by a forward or backward slash. -/
def suspiciousTable : List ((String → Bool) × String) :=
  [ (fun url => containsSub (lowerStr url) "javascript:", "JavaScript URLs are not allowed"),
    (fun url => containsSub (lowerStr url) "data:", "Data URLs are not allowed"),
    (fun url => containsSub (lowerStr url) "file:", "File URLs are not allowed"),
    (fun url => containsSub (lowerStr url) "vbscript:", "VBScript URLs are not allowed"),
    (fun url => containsSub (lowerStr url) "<script", "Script tags detected in URL"),
    (fun url => containsSub url "../" || containsSub url "..\\", "Path traversal detected") ]

/-- First-match lookup over the ordered pattern table (the `for` loop of
`page.tsx` lines 109-113). -/
def firstSuspicious (url : String) : Option String :=
  suspiciousTable.findSome? (fun entry => if entry.1 url then some entry.2 else none)

/-- Model of the regex `^\d{1,3}\.\d{1,3}\.\d{1,3}\.\d{1,3}$` of
`page.tsx` line 121: exactly four dot-separated runs of one to three
ASCII digits. -/
def isDottedQuad (host : String) : Bool :=
  match host.splitOn "." with
  | [a, b, c, d] =>
    (a :: b :: c :: d :: []).all
      (fun g => decide (1 ≤ g.length) && decide (g.length ≤ 3) && g.data.all Char.isDigit)
  | _ => false

/-- Embeds `checkSuspiciousUrl` (`page.tsx` lines 99-135): first-match over
the ordered pattern table; if nothing matches, parse the URL (the source
prefixes `https://` whenever the string does not start with the plain text
`http`) and apply the IP-address and length heuristics; a parse failure
yields no warning (the `catch` branch of lines 129-132). -/
def checkSuspiciousUrl (url : String) : Bool × Option String :=
  match firstSuspicious url with
  | some msg => (true, some msg)
  | none =>
    match parseURL (if jsStartsWith url "http" then url else "https://" ++ url) with
    | some u =>
      if isDottedQuad (lowerStr u.hostname) then
        (true, some "Warning: IP address detected (verify source)")
      else if url.length > 200 then
        (true, some "Warning: Unusually long URL")
      else (false, none)
    | none => (false, none)

/-! ### QR record generation (`page.tsx` lines 166-231 and 350-388) -/

/-- The record shape of `page.tsx` lines 10-16. -/
structure QRCodeData where
  id : Nat
  url : String
  isValid : Bool
  hasWarning : Bool
  warningMessage : Option String
deriving DecidableEq, Repr

/-- Security constant (`page.tsx` line 26). -/
def MAX_QR_CODES : Nat := 750

/-- One iteration of the `limitedList.map((link, index) => ...)` body of
`page.tsx` lines 193-208 (the CSV path, lines 355-370, is identical):
validity, conditional normalization, advisory check, and the record. -/
def mkRecord (index : Nat) (link : String) : QRCodeData :=
  let isValid := isValidUrl link
  let normalizedUrl := if isValid then normalizeUrl link else link
  let suspiciousCheck := checkSuspiciousUrl normalizedUrl
  { id := index + 1, url := normalizedUrl, isValid := isValid,
    hasWarning := suspiciousCheck.1, warningMessage := suspiciousCheck.2 }

/-- The indexed map of the generation step, written as structural recursion:
`buildRecords start l` maps `mkRecord` over `l` with indices starting at
`start`. -/
def buildRecords (start : Nat) : List String → List QRCodeData
  | [] => []
  | link :: rest => mkRecord start link :: buildRecords (start + 1) rest

/-- Embeds the record construction shared by `generateQRCodes` (lines
189-208) and the CSV auto-generation step (lines 351-370): cap the candidate
list at `MAX_QR_CODES`, then map each candidate to its record. -/
def generateRecords (linkList : List String) : List QRCodeData :=
  buildRecords 0 (linkList.take MAX_QR_CODES)

/-- The candidate list produced from pasted text (`page.tsx` lines 170-173):
split on newlines, trim, drop empties. -/
def splitLinks (links : String) : List String :=
  ((links.splitOn "\n").map jsTrim).filter (fun l => decide (0 < l.length))

/-- Embeds `generateQRCodes` (`page.tsx` lines 166-231), restricted to the
produced record list. -/
def generateQRCodes (links : String) : List QRCodeData :=
  generateRecords (splitLinks links)

/-! ### CSV candidate extraction (`page.tsx` lines 287-347) -/

/-- Cursor URL constant (`page.tsx` line 30). -/
def CURSOR_BASE_URL : String := "https://cursor.com/"

/-- The referral test of `page.tsx` line 305:
`row[j] && row[j].trim() && row[j].toLowerCase().startsWith(referral)`.
Note the `startsWith` test runs on the untrimmed cell text. -/
def cellIsReferral (cell : String) : Bool :=
  cell != "" && jsTrim cell != "" && jsStartsWith (lowerStr cell) "referral"

/-- The referral scan of `page.tsx` lines 303-313: first matching cell,
returned trimmed (`row[j].trim()` of line 307). -/
def findReferralCell (row : List String) : Option String :=
  row.findSome? (fun cell => if cellIsReferral cell then some (jsTrim cell) else none)

/-- The fallback branch of `page.tsx` lines 316-328 applied to the first
cell of a row in which no referral cell was found. -/
def fallbackCell (c0 : String) : List String :=
  if c0 != "" && jsTrim c0 != "" then
    let url := jsTrim c0
    if jsStartsWith url "http://" || jsStartsWith url "https://" then [url]
    else if jsStartsWith (lowerStr url) "referral" then [CURSOR_BASE_URL ++ url]
    else [url]
  else []

/-- Candidates contributed by one non-header row (`page.tsx` lines 302-328). -/
def processRow (row : List String) : List String :=
  match findReferralCell row with
  | some path => [CURSOR_BASE_URL ++ path]
  | none =>
    match row with
    | [] => []
    | c0 :: _ => fallbackCell c0

/-- The header sniff of `page.tsx` line 297:
`i === 0 && row[0]?.toLowerCase().includes(url)`. -/
def isHeaderRow (row : List String) : Bool :=
  match row with
  | [] => false
  | c0 :: _ => containsSub (lowerStr c0) "url"

/-- Embeds the extraction loop of `page.tsx` lines 292-329 over the rows
already produced by the CSV parser (PapaParse, external, with
`skipEmptyLines`): row `0` is skipped when it looks like a header, every
row contributes the candidates of `processRow`. -/
def extractCandidates (rows : List (List String)) : List String :=
  match rows with
  | [] => []
  | r0 :: rest => (if isHeaderRow r0 then [] else processRow r0) ++ rest.flatMap processRow

/-- Embeds the CSV upload path (`page.tsx` lines 287-388), restricted to the
produced record list. -/
def handleCsvRecords (rows : List (List String)) : List QRCodeData :=
  generateRecords (extractCandidates rows)

/-! ### Collator: cut-and-stack numbering (`page.tsx` lines 37-44) -/

/-- The page count `Math.ceil(N / S)` used by the print loop
(`page.tsx` line 885), as exact ceiling division. -/
def pageCount (R C N : Nat) : Nat := (N + R * C - 1) / (R * C)

/-- Embeds `numberForCell` (`page.tsx` lines 38-44); `Math.ceil(N / S)` is
modelled as exact ceiling division. -/
def numberForCell (p r c R C N : Nat) : Option Nat :=
  let S := R * C
  let P := (N + S - 1) / S
  let s := r * C + c
  let n := s * P + (p + 1)
  if n ≤ N then some n else none

/-- The stack of numbers a fixed grid slot receives across pages
`0 .. P-1`. -/
def slotStack (r c R C N : Nat) : List Nat :=
  (List.range (pageCount R C N)).filterMap (fun p => numberForCell p r c R C N)

/-- Concatenation of the per-slot stacks in row-major slot order. -/
def cutStackConcat (R C N : Nat) : List Nat :=
  (List.range R).flatMap (fun r => (List.range C).flatMap (fun c => slotStack r c R C N))

/-! ### Helper lemmas for the Collator -/

/-- A guarded shift over `List.range` enumerates an interval. -/
lemma filterMap_range_if (b M : Nat) :
    ∀ P, (List.range P).filterMap (fun p => if p < M then some (b + p) else none) =
      List.range' b (min P M) := by
  intro P
  induction P with
  | zero => simp
  | succ P ih =>
    rw [List.range_succ, List.filterMap_append, ih]
    by_cases h : P < M
    · rw [Nat.min_eq_left (by omega), Nat.min_eq_left (by omega)]
      simp only [List.filterMap_cons, List.filterMap_nil, if_pos h]
      rw [List.range'_concat]
      simp
    · rw [Nat.min_eq_right (by omega), Nat.min_eq_right (by omega)]
      simp only [List.filterMap_cons, List.filterMap_nil, if_neg h]
      simp

/-- Closed form of one slot stack: slot `s` holds the consecutive interval
starting at `s*P + 1`, truncated by `N`. -/
lemma stack_closed (P N s : Nat) :
    (List.range P).filterMap
        (fun p => if s * P + (p + 1) ≤ N then some (s * P + (p + 1)) else none) =
      List.range' (s * P + 1) (min P (N - s * P)) := by
  have hfun : (fun p => if s * P + (p + 1) ≤ N then some (s * P + (p + 1)) else none) =
      (fun p => if p < N - s * P then some ((s * P + 1) + p) else none) := by
    funext p
    by_cases h : s * P + (p + 1) ≤ N
    · rw [if_pos h, if_pos (by omega)]
      congr 1
      omega
    · rw [if_neg h, if_neg (by omega)]
  rw [hfun, filterMap_range_if]

/-- Collapsing a row-major double loop over a grid into a single loop over
slot indices. -/
lemma flatMap_range_mul {α : Type} (C : Nat) (f : Nat → List α) :
    ∀ R, (List.range R).flatMap (fun r => (List.range C).flatMap (fun c => f (r * C + c))) =
      (List.range (R * C)).flatMap f := by
  intro R
  induction R with
  | zero => simp
  | succ R ih =>
    rw [List.range_succ, List.flatMap_append, ih, Nat.succ_mul, List.range_add,
      List.flatMap_append, List.flatMap_map]
    simp

/-- Tiling lemma: consecutive truncated intervals of width `P` concatenate
to the single interval `1 .. min (S*P) N`. -/
lemma flatMap_range'_tile (P N : Nat) :
    ∀ S, (List.range S).flatMap
        (fun s => List.range' (s * P + 1) (min P (N - s * P))) =
      List.range' 1 (min (S * P) N) := by
  intro S
  induction S with
  | zero => simp
  | succ S ih =>
    rw [List.range_succ, List.flatMap_append, ih]
    have hmul : (S + 1) * P = S * P + P := Nat.succ_mul S P
    simp only [List.flatMap_cons, List.flatMap_nil, List.append_nil]
    rw [hmul]
    by_cases hc : N ≤ S * P
    · rw [Nat.min_eq_right hc, Nat.min_eq_right (show N ≤ S * P + P by omega)]
      have h0 : N - S * P = 0 := by omega
      rw [h0]
      simp
    · by_cases h2 : S * P + P ≤ N
      · rw [Nat.min_eq_left (show S * P ≤ N by omega),
          Nat.min_eq_left (show P ≤ N - S * P by omega),
          Nat.min_eq_left (show S * P + P ≤ N by omega)]
        have happ := List.range'_append 1 (S * P) P 1
        simp only [Nat.one_mul, Nat.mul_one] at happ
        rw [show S * P + 1 = 1 + S * P by omega, happ]
        congr 1
        omega
      · rw [Nat.min_eq_left (show S * P ≤ N by omega),
          Nat.min_eq_right (show N - S * P ≤ P by omega),
          Nat.min_eq_right (show N ≤ S * P + P by omega)]
        have happ := List.range'_append 1 (S * P) (N - S * P) 1
        simp only [Nat.one_mul, Nat.mul_one] at happ
        rw [show S * P + 1 = 1 + S * P by omega, happ]
        congr 1
        omega

/-- The ceiling page count covers all `N` items. -/
lemma le_mul_pageCount (S N : Nat) (hS : 0 < S) : N ≤ S * ((N + S - 1) / S) := by
  have h := Nat.div_add_mod (N + S - 1) S
  have h2 : (N + S - 1) % S < S := Nat.mod_lt _ hS
  omega

/-- Each slot stack is the guarded interval of its slot index. -/
lemma slotStack_eq (r c R C N : Nat) :
    slotStack r c R C N =
      (List.range (pageCount R C N)).filterMap
        (fun p => if (r * C + c) * pageCount R C N + (p + 1) ≤ N then
          some ((r * C + c) * pageCount R C N + (p + 1)) else none) := rfl

/-- Concatenating the per-slot stacks in row-major slot order yields exactly
`1 .. N` in order. -/
lemma cutStackConcat_eq (R C N : Nat) (hR : 1 ≤ R) (hC : 1 ≤ C) :
    cutStackConcat R C N = List.range' 1 N := by
  have hS : 0 < R * C := Nat.mul_pos hR hC
  unfold cutStackConcat
  have h1 : ∀ r c, slotStack r c R C N =
      (fun s => List.range' (s * pageCount R C N + 1)
        (min (pageCount R C N) (N - s * pageCount R C N))) (r * C + c) := by
    intro r c
    rw [slotStack_eq, stack_closed]
  simp only [h1]
  rw [flatMap_range_mul C
    (fun s => List.range' (s * pageCount R C N + 1)
      (min (pageCount R C N) (N - s * pageCount R C N))) R]
  rw [flatMap_range'_tile (pageCount R C N) N (R * C)]
  have h2 : N ≤ R * C * pageCount R C N := le_mul_pageCount (R * C) N hS
  rw [Nat.min_eq_right h2]

/-- When `N` is not a multiple of `S`, the ceiling page count is one more
than the floor quotient. -/
lemma pageCount_of_mod_ne (R C N : Nat) (hS : 0 < R * C) (h : N % (R * C) ≠ 0) :
    pageCount R C N = N / (R * C) + 1 := by
  set S := R * C with hSdef
  have hdm := Nat.div_add_mod N S
  have hlt : N % S < S := Nat.mod_lt _ hS
  have key : N + S - 1 = S * (N / S + 1) + (N % S - 1) := by
    rw [Nat.mul_succ]
    omega
  have h3 : (N % S - 1) / S = 0 := Nat.div_eq_of_lt (by omega)
  show (N + S - 1) / S = N / S + 1
  rw [key, Nat.mul_add_div hS, h3]

/-! ### Claim theorems for the Collator -/

/-- C1: for every page `p`, row `r < R`, column `c < C`, grid shape
`R ≥ 1`, `C ≥ 1` and total count `N`, `numberForCell p r c R C N` returns
`n = slot*P + (p+1)` with `slot = r*C + c` and `P = ⌈N / (R*C)⌉` whenever
`n ≤ N`, and returns `none` otherwise. -/
theorem numberForCell_formula (p r c R C N : Nat) (_hR : 1 ≤ R) (_hC : 1 ≤ C)
    (_hr : r < R) (_hc : c < C) :
    numberForCell p r c R C N =
      if (r * C + c) * (N ⌈/⌉ (R * C)) + (p + 1) ≤ N then
        some ((r * C + c) * (N ⌈/⌉ (R * C)) + (p + 1))
      else none := by
  rw [Nat.ceilDiv_eq_add_pred_div]
  rfl

theorem numberForCell_formula_witness :
    numberForCell 1 0 1 3 3 10 = some 4 := by
  rw [numberForCell_formula 1 0 1 3 3 10 (by decide) (by decide) (by decide) (by decide)]
  decide

/-- C2: for `R ≥ 1`, `C ≥ 1` and any `N`, within each fixed slot the
non-`none` values of `numberForCell` are strictly increasing in the page
index, and concatenating the per-slot stacks over pages `0 .. P-1` in
row-major slot order yields exactly `1 .. N` in order (so the non-`none`
values are exactly `{1, ..., N}`, each appearing in exactly one cell). -/
theorem collation_sorted_and_complete (R C N : Nat) (hR : 1 ≤ R) (hC : 1 ≤ C) :
    (∀ r c p₁ p₂ n₁ n₂, p₁ < p₂ →
        numberForCell p₁ r c R C N = some n₁ →
        numberForCell p₂ r c R C N = some n₂ → n₁ < n₂) ∧
    cutStackConcat R C N = List.range' 1 N := by
  constructor
  · intro r c p₁ p₂ n₁ n₂ hp h1 h2
    simp only [numberForCell] at h1 h2
    split at h1
    · split at h2
      · cases h1
        cases h2
        omega
      · cases h2
    · cases h1
  · exact cutStackConcat_eq R C N hR hC

theorem collation_sorted_and_complete_witness :
    cutStackConcat 3 3 10 = [1, 2, 3, 4, 5, 6, 7, 8, 9, 10] :=
  ((collation_sorted_and_complete 3 3 10 (by decide) (by decide)).2).trans (by decide)

/-- C3 counterexample: with `R = C = 3` and `N = 10` (so `S = 9`,
`N mod S = 1 ≠ 0`, `P = 2`), the cell at page `0`, row `2`, column `1`
already returns `none` although page `0` is not the final page `P - 1 = 1`;
moreover the final page has `4` cells returning `none`, not
`S - (N mod S) = 8`. -/
theorem collation_none_counterexample :
    pageCount 3 3 10 = 2 ∧
    numberForCell 0 2 1 3 3 10 = none ∧
    ((List.range 3).flatMap
        (fun r => (List.range 3).map (fun c => numberForCell 1 r c 3 3 10))).countP
      (fun o => o.isNone) = 4 ∧
    3 * 3 - 10 % (3 * 3) = 8 := by
  refine ⟨by decide, by decide, by decide, by decide⟩

/-- C3 as amended: for `R ≥ 1`, `C ≥ 1`, `N > 0` with `N` not a multiple of
`S = R*C`, empty cells can occur on any page; across all `P` pages together
exactly `S - (N mod S)` of the `S*P` grid cells return `none` (the total
cell count minus the `N` filled cells); and it is the highest-indexed slots
that lose entries: on any fixed page, once a slot returns `none`, every
slot with a greater or equal row-major index also returns `none`. -/
theorem collation_none_distribution (R C N : Nat) (hR : 1 ≤ R) (hC : 1 ≤ C)
    (_hN : 0 < N) (hmod : N % (R * C) ≠ 0) :
    R * C * pageCount R C N - (cutStackConcat R C N).length = R * C - N % (R * C) ∧
    (∀ p r c r' c', r * C + c ≤ r' * C + c' →
        numberForCell p r c R C N = none → numberForCell p r' c' R C N = none) := by
  constructor
  · rw [cutStackConcat_eq R C N hR hC, List.length_range']
    have hS : 0 < R * C := Nat.mul_pos hR hC
    have hP := pageCount_of_mod_ne R C N hS hmod
    have hdm := Nat.div_add_mod N (R * C)
    have hlt : N % (R * C) < R * C := Nat.mod_lt _ hS
    rw [hP, Nat.mul_succ]
    omega
  · intro p r c r' c' hle hnone
    simp only [numberForCell] at hnone ⊢
    split at hnone
    · cases hnone
    · next hgt =>
      rw [if_neg]
      have hmu : (r * C + c) * ((N + R * C - 1) / (R * C)) ≤
          (r' * C + c') * ((N + R * C - 1) / (R * C)) :=
        Nat.mul_le_mul_right _ hle
      omega

theorem collation_none_distribution_witness :
    3 * 3 * pageCount 3 3 10 - (cutStackConcat 3 3 10).length = 3 * 3 - 10 % (3 * 3) :=
  (collation_none_distribution 3 3 10 (by decide) (by decide) (by decide) (by decide)).1

/-! ### Shared first-match lemma -/

/-- First-match semantics of `List.findSome?`: if position `i` produces a
value and every earlier position produces `none`, the search returns the
value found at position `i`. -/
lemma findSome?_of_first {α β : Type} (f : α → Option β) :
    ∀ (l : List α) (i : Nat) (h : i < l.length) (b : β),
      f l[i] = some b →
      (∀ j (hj : j < l.length), j < i → f l[j] = none) →
      l.findSome? f = some b := by
  intro l
  induction l with
  | nil =>
    intro i h
    exact absurd h (by simp)
  | cons a l ih =>
    intro i h b hf hbefore
    cases i with
    | zero =>
      rw [List.findSome?_cons]
      rw [List.getElem_cons_zero] at hf
      rw [hf]
    | succ i =>
      rw [List.findSome?_cons]
      have ha : f a = none := by
        have h0 := hbefore 0 (by simp) (by omega)
        rwa [List.getElem_cons_zero] at h0
      rw [ha]
      apply ih i (by simpa using h) b
      · rwa [List.getElem_cons_succ] at hf
      · intro j hj hji
        have hstep := hbefore (j + 1) (by simpa using hj) (by omega)
        rwa [List.getElem_cons_succ] at hstep

/-! ### Claim theorems for the Validator -/

/-- C6: `isValidUrl` returns `false` for every string whose trimmed text is
empty, and for every string whose effectively parsed scheme (direct parse,
or the `https://`-prefixed parse when the direct parse fails) is not `http`
or `https`; it returns `true` when the effective parse succeeds with an
allowed scheme (and the input is not whitespace-only); in particular on the
three concrete examples of the spec. -/
theorem validator_contract :
    (∀ s, (jsTrim s).length = 0 → isValidUrl s = false) ∧
    (∀ s u, effectiveParse s = some u → ALLOWED_SCHEMES.contains u.protocol = false →
      isValidUrl s = false) ∧
    (∀ s u, (jsTrim s).length ≠ 0 → effectiveParse s = some u →
      ALLOWED_SCHEMES.contains u.protocol = true → isValidUrl s = true) ∧
    isValidUrl "javascript:alert(1)" = false ∧
    isValidUrl "example.com" = true ∧
    isValidUrl "not a url at all !!" = false := by
  refine ⟨?_, ?_, ?_, by decide, by decide, by decide⟩
  · intro s h
    simp only [isValidUrl, if_pos h]
  · intro s u hep hcon
    unfold effectiveParse at hep
    by_cases htrim : (jsTrim s).length = 0
    · simp only [isValidUrl, if_pos htrim]
    · cases hp : parseURL s with
      | some v =>
        rw [hp] at hep
        have h2 : some v = some u := hep
        cases h2
        simp [isValidUrl, isValidUrlScheme, htrim, hp]
        simpa using hcon
      | none =>
        rw [hp] at hep
        have h2 : parseURL ("https://" ++ s) = some u := hep
        simp [isValidUrl, isValidUrlScheme, htrim, hp, h2]
        simpa using hcon
  · intro s u htrim hep hcon
    unfold effectiveParse at hep
    cases hp : parseURL s with
    | some v =>
      rw [hp] at hep
      have h2 : some v = some u := hep
      cases h2
      simp [isValidUrl, isValidUrlScheme, htrim, hp]
      simpa using hcon
    | none =>
      rw [hp] at hep
      have h2 : parseURL ("https://" ++ s) = some u := hep
      simp [isValidUrl, isValidUrlScheme, htrim, hp, h2]
      simpa using hcon

theorem validator_contract_witness :
    isValidUrl " " = false ∧ isValidUrl "example.com" = true :=
  ⟨validator_contract.1 " " (by decide),
    validator_contract.2.2.1 "example.com" ⟨"https:", "example.com"⟩ (by decide) (by decide)
      (by decide)⟩

/-- Prepending a string makes it a prefix of the result. -/
lemma jsStartsWith_append_self (pre s : String) : jsStartsWith (pre ++ s) pre = true := by
  unfold jsStartsWith
  rw [String.data_append]
  exact List.isPrefixOf_iff_prefix.mpr (List.prefix_append _ _)

/-- C8: `normalizeUrl` is idempotent on every string, and for every string
that does not already begin with `http://` or `https://` (in particular
every such non-empty string) the result begins with `https://`. -/
theorem normalize_idempotent_and_schemed :
    (∀ s : String, normalizeUrl (normalizeUrl s) = normalizeUrl s) ∧
    (∀ s : String, s ≠ "" → jsStartsWith s "http://" = false →
      jsStartsWith s "https://" = false →
      jsStartsWith (normalizeUrl s) "https://" = true) := by
  constructor
  · intro s
    unfold normalizeUrl
    by_cases h : (jsStartsWith s "http://" || jsStartsWith s "https://") = true
    · rw [if_pos h, if_pos h]
    · rw [if_neg h]
      rw [if_pos (by rw [jsStartsWith_append_self]; exact Bool.or_true _)]
  · intro s _hne h1 h2
    unfold normalizeUrl
    rw [if_neg (by simp [h1, h2])]
    exact jsStartsWith_append_self "https://" s

theorem normalize_idempotent_and_schemed_witness :
    normalizeUrl (normalizeUrl "example.com") = normalizeUrl "example.com" ∧
    jsStartsWith (normalizeUrl "example.com") "https://" = true :=
  ⟨normalize_idempotent_and_schemed.1 "example.com",
    normalize_idempotent_and_schemed.2 "example.com" (by decide) (by decide) (by decide)⟩

/-! ### Claim theorems for the Sanitizer -/

/-- C7: for every string matching at least one entry of the ordered pattern
table, `checkSuspiciousUrl` returns `hasWarning = true` with exactly the
advisory message of the earliest matching entry (first match wins, later
entries are not consulted); in particular the spec example with an embedded
script tag. -/
theorem sanitizer_first_match :
    (∀ (s : String) (i : Nat) (h : i < suspiciousTable.length),
      suspiciousTable[i].1 s = true →
      (∀ j (hj : j < suspiciousTable.length), j < i → suspiciousTable[j].1 s = false) →
      checkSuspiciousUrl s = (true, some suspiciousTable[i].2)) ∧
    checkSuspiciousUrl "https://example.com/<script>x</script>" =
      (true, some "Script tags detected in URL") := by
  constructor
  · intro s i h hmatch hbefore
    have hfind : firstSuspicious s = some suspiciousTable[i].2 := by
      apply findSome?_of_first (fun entry => if entry.1 s then some entry.2 else none)
        suspiciousTable i h
      · simp [hmatch]
      · intro j hj hji
        simp [hbefore j hj hji]
    unfold checkSuspiciousUrl
    rw [hfind]
  · decide

theorem sanitizer_first_match_witness :
    checkSuspiciousUrl "javascript:alert(1)" =
      (true, some "JavaScript URLs are not allowed") :=
  sanitizer_first_match.1 "javascript:alert(1)" 0 (by decide) (by decide)
    (fun j _hj hji => absurd hji (Nat.not_lt_zero j))

/-- C9: when no entry of the pattern table matches and the URL parse the
Sanitizer attempts (on the string itself when it starts with `http`,
otherwise on its `https://`-prefixed form) fails, `checkSuspiciousUrl`
returns no warning instead of an error. -/
theorem sanitizer_parse_failure_no_warning (s : String)
    (hclean : firstSuspicious s = none)
    (hparse : parseURL (if jsStartsWith s "http" then s else "https://" ++ s) = none) :
    checkSuspiciousUrl s = (false, none) := by
  unfold checkSuspiciousUrl
  rw [hclean, hparse]

theorem sanitizer_parse_failure_no_warning_witness :
    checkSuspiciousUrl "ex ample" = (false, none) :=
  sanitizer_parse_failure_no_warning "ex ample" (by decide) (by decide)

/-! ### Helper lemmas for the generation step -/

/-- `buildRecords` preserves length. -/
lemma buildRecords_length : ∀ (l : List String) (start : Nat),
    (buildRecords start l).length = l.length := by
  intro l
  induction l with
  | nil => intro start; rfl
  | cons link rest ih =>
    intro start
    simp [buildRecords, ih]

/-- The ids produced by `buildRecords` are consecutive from `start + 1`. -/
lemma buildRecords_map_id : ∀ (l : List String) (start : Nat),
    (buildRecords start l).map (fun q => q.id) = List.range' (start + 1) l.length := by
  intro l
  induction l with
  | nil => intro start; rfl
  | cons link rest ih =>
    intro start
    simp only [buildRecords, List.map_cons, List.length_cons, List.range'_succ, ih]
    rfl

/-- Element-wise description of `buildRecords`. -/
lemma buildRecords_getElem? : ∀ (l : List String) (start i : Nat),
    (buildRecords start l)[i]? = l[i]?.map (fun link => mkRecord (start + i) link) := by
  intro l
  induction l with
  | nil => intro start i; simp [buildRecords]
  | cons link rest ih =>
    intro start i
    cases i with
    | zero => simp [buildRecords]
    | succ i =>
      simp only [buildRecords, List.getElem?_cons_succ, ih]
      have : start + 1 + i = start + (i + 1) := by omega
      rw [this]

/-- Element-wise description of `generateRecords` below the cap. -/
lemma generateRecords_getElem? (cands : List String) (i : Nat) (hi : i < MAX_QR_CODES) :
    (generateRecords cands)[i]? = cands[i]?.map (fun link => mkRecord i link) := by
  unfold generateRecords
  rw [buildRecords_getElem?, List.getElem?_take, if_pos hi]
  simp

/-! ### Claim theorems for the generation step -/

/-- C4 counterexample: for the candidate `"javascript:alert(1)"` (invalid:
its scheme is disallowed), the generation step stores the candidate
unchanged — not `normalizeUrl` of it — and the stored url begins with
neither `http://` nor `https://`. -/
theorem record_url_counterexample :
    (generateRecords ["javascript:alert(1)"]).map (fun q => q.url) =
      ["javascript:alert(1)"] ∧
    (generateRecords ["javascript:alert(1)"]).map (fun q => q.isValid) = [false] ∧
    normalizeUrl "javascript:alert(1)" = "https://javascript:alert(1)" ∧
    ("javascript:alert(1)" : String) ≠ "https://javascript:alert(1)" ∧
    jsStartsWith "javascript:alert(1)" "http://" = false ∧
    jsStartsWith "javascript:alert(1)" "https://" = false := by
  refine ⟨by decide, by decide, by decide, by decide, by decide, by decide⟩

/-- C4 as amended: the url of the produced record equals `normalizeUrl` of the
candidate only when the candidate is valid; an invalid candidate is stored
unchanged (unnormalized). Valid records therefore always carry a
scheme-qualified url, but invalid ones need not. -/
theorem record_url_normalization (cands : List String) (i : Nat) (link : String)
    (hi : i < MAX_QR_CODES) (hget : cands[i]? = some link) :
    ∃ q, (generateRecords cands)[i]? = some q ∧
      q.url = (if isValidUrl link then normalizeUrl link else link) ∧
      (q.isValid = true → q.url = normalizeUrl link ∧
        (jsStartsWith q.url "http://" || jsStartsWith q.url "https://") = true) := by
  refine ⟨mkRecord i link, ?_, rfl, ?_⟩
  · rw [generateRecords_getElem? cands i hi, hget]
    rfl
  · intro hvalid
    have hv : isValidUrl link = true := hvalid
    constructor
    · show (if isValidUrl link then normalizeUrl link else link) = normalizeUrl link
      rw [if_pos hv]
    · show (jsStartsWith (mkRecord i link).url "http://" ||
        jsStartsWith (mkRecord i link).url "https://") = true
      have hurl : (mkRecord i link).url = normalizeUrl link := by
        show (if isValidUrl link then normalizeUrl link else link) = normalizeUrl link
        rw [if_pos hv]
      rw [hurl]
      unfold normalizeUrl
      by_cases h : (jsStartsWith link "http://" || jsStartsWith link "https://") = true
      · rw [if_pos h]
        exact h
      · rw [if_neg h, jsStartsWith_append_self]
        exact Bool.or_true _

theorem record_url_normalization_witness :
    ∃ q, (generateRecords ["example.com"])[0]? = some q ∧
      q.url = (if isValidUrl "example.com" then normalizeUrl "example.com"
        else "example.com") ∧
      (q.isValid = true → q.url = normalizeUrl "example.com" ∧
        (jsStartsWith q.url "http://" || jsStartsWith q.url "https://") = true) :=
  record_url_normalization ["example.com"] 0 "example.com" (by decide) rfl

/-- C10: a generation run produces exactly `min MAX_QR_CODES n` records for
`n` candidates — every candidate becomes a record when `n ≤ 750`, and
exactly the first `750` in input order do when `n > 750` — with dense ids
`1, 2, ...` and the `i`-th record built from the `i`-th candidate. -/
theorem generation_cap (cands : List String) :
    (generateRecords cands).length = min MAX_QR_CODES cands.length ∧
    (generateRecords cands).map (fun q => q.id) =
      List.range' 1 (min MAX_QR_CODES cands.length) ∧
    (∀ i link, i < MAX_QR_CODES → cands[i]? = some link →
      (generateRecords cands)[i]? = some (mkRecord i link)) := by
  refine ⟨?_, ?_, ?_⟩
  · unfold generateRecords
    rw [buildRecords_length, List.length_take]
  · unfold generateRecords
    rw [buildRecords_map_id, List.length_take]
  · intro i link hi hget
    rw [generateRecords_getElem? cands i hi, hget]
    rfl

theorem generation_cap_witness :
    (generateRecords ["https://a.com", "https://b.com"]).map (fun q => q.id) = [1, 2] ∧
    (generateRecords ["https://a.com", "https://b.com"])[0]? =
      some (mkRecord 0 "https://a.com") :=
  ⟨((generation_cap ["https://a.com", "https://b.com"]).2.1).trans (by decide),
    (generation_cap ["https://a.com", "https://b.com"]).2.2 0 "https://a.com"
      (by decide) rfl⟩

/-! ### Claim theorems for the CSV Extractor -/

/-- C5 counterexample: in the row `["x", " referral?code=A"]` (after a
header row) the trimmed, lowercased text of the second cell begins with
`referral`, yet the code extracts the candidate `"x"` from the first cell:
the source tests `startsWith(referral)` on the untrimmed cell text, so a
referral cell with leading whitespace is not recognised. -/
theorem csv_referral_counterexample :
    extractCandidates [["url"], ["x", " referral?code=A"]] = ["x"] ∧
    jsStartsWith (lowerStr (jsTrim " referral?code=A")) "referral" = true ∧
    (["x"] : List String) ≠ [CURSOR_BASE_URL ++ jsTrim " referral?code=A"] := by
  refine ⟨by decide, by decide, by decide⟩

/-- C5 as amended: scanning left to right, the first cell whose lowercased
(untrimmed) text begins with `referral` produces the single candidate of
the row, the fixed base URL concatenated with the trimmed original-case
text of that cell, and no later cell is considered; the example row of the spec,
`["referral?code=ABC123"]` does yield
`"https://cursor.com/referral?code=ABC123"`. -/
theorem csv_referral_first_match :
    (∀ (row : List String) (i : Nat) (h : i < row.length),
      cellIsReferral row[i] = true →
      (∀ j (hj : j < row.length), j < i → cellIsReferral row[j] = false) →
      processRow row = [CURSOR_BASE_URL ++ jsTrim row[i]]) ∧
    extractCandidates [["referral?code=ABC123"]] =
      ["https://cursor.com/referral?code=ABC123"] := by
  constructor
  · intro row i h hmatch hbefore
    have hfind : findReferralCell row = some (jsTrim row[i]) := by
      apply findSome?_of_first
        (fun cell => if cellIsReferral cell then some (jsTrim cell) else none) row i h
      · simp [hmatch]
      · intro j hj hji
        simp [hbefore j hj hji]
    unfold processRow
    rw [hfind]
  · decide

theorem csv_referral_first_match_witness :
    processRow ["x", "referral?code=B"] =
      [CURSOR_BASE_URL ++ jsTrim "referral?code=B"] :=
  csv_referral_first_match.1 ["x", "referral?code=B"] 1 (by decide) (by decide)
    (by
      intro j hj hji
      have hj0 : j = 0 := by omega
      subst hj0
      show cellIsReferral "x" = false
      decide)

end QRGen
